import Mathlib

/-!
Verification development for the AirCast air-quality stack
(`backend/main.py`, `frontend/app.py`).

The development shallowly embeds the three components the specification
covers:

* the time-series filter/resample pipeline (`filter_resample` in
  `frontend/app.py`), with timestamps as integer seconds, pandas `NaT`
  as `Option.none`, and pandas `NaN` cells as `Option.none` over `ℚ`;
* the station snapshot builder (`latest_station_data` / `get_color` in
  `frontend/app.py`), where `sort_values("to")` is modelled up to its
  documented guarantee — a permutation of the rows sorted ascending on the
  `to` key with missing timestamps last (default `na_position`), the tie
  order being unspecified since the default `kind="quicksort"` is
  unstable — and `drop_duplicates("station", keep="last")` keeps the last
  occurrence of each station; the snapshot theorems are proved for every
  sorted permutation (`snapshot_sortedPerm`), never relying on the tie
  order of the executable insertion-sort refinement used to run the model;
* the backend store and HTTP endpoints (`upload_csv`, `upload_json`,
  `get_predictions`, `read_meta` in `backend/main.py`), with the parquet
  file and the metadata sidecar as two independent optional fields of a
  `BackendState`.

Pandas resampling with the fixed-width rules `1H`/`1D`/`7D`/`30D`
(default `closed="left"`, `label="left"`, `origin="start_day"`) bins the
index into windows of the given width anchored at midnight of the day of
the smallest index value, emits one row per bin from the bin containing
the minimum up to the bin containing the maximum (interior empty bins
included, with null cells), and takes the per-column mean over non-null
values.  `df.to_datetime` string parsing and CSV parsing are pandas
library internals; the model covers already-parsed instants, numeric
cells and nulls, and conservatively treats other conversions as failing.
-/

/-- `FilterScope`: the sidebar time-scope options of `frontend/app.py`. -/
inductive TimeScope where
  | pastDay
  | pastWeek
  | pastMonth
  | pastYear
  | allTime
deriving DecidableEq

/-- `Granularity`: the sidebar granularity options of `frontend/app.py`. -/
inductive Granularity where
  | hourly
  | daily
  | weekly
  | monthly
deriving DecidableEq

/-- One input row of the pipeline: an optional timestamp (`none` is pandas
`NaT`, produced by `pd.to_datetime(..., errors="coerce")`) and the cells of
the requested numeric columns (`none` is `NaN`). -/
structure Row where
  t : Option Int
  vals : List (Option ℚ)
deriving DecidableEq

/-- One output row of the pipeline: the bucket-start timestamp and the
per-column means. -/
structure OutRow where
  t : Int
  vals : List (Option ℚ)
deriving DecidableEq

/-- Maximum of a list of timestamps; `none` on the empty list.  Models
pandas `Series.max()` on a datetime column (which skips `NaT` and returns
`NaT` when nothing remains). -/
def listMax : List Int → Option Int
  | [] => none
  | x :: xs =>
    match listMax xs with
    | none => some x
    | some m => some (max x m)

/-- Minimum of a list of timestamps; `none` on the empty list.  Models
pandas `Series.min()`. -/
def listMin : List Int → Option Int
  | [] => none
  | x :: xs =>
    match listMin xs with
    | none => some x
    | some m => some (min x m)

/-- `df[time_col].max()` over the embedded rows. -/
def tmax (rows : List Row) : Option Int :=
  listMax (rows.filterMap Row.t)

/-- `df[time_col].min()` over the embedded rows. -/
def tmin (rows : List Row) : Option Int :=
  listMin (rows.filterMap Row.t)

/-- Seconds per day. -/
def secPerDay : Int := 86400

/-- `start_time` of `filter_resample`: `max_time` minus the fixed lookback
(`Timedelta(days=1)`, `Timedelta(weeks=1)`, `Timedelta(days=30)`,
`Timedelta(days=365)`), or `df[time_col].min()` for the `All Time` branch.
When the series has no timestamps this is `none` (`NaT`). -/
def startTime (rows : List Row) (s : TimeScope) : Option Int :=
  match s with
  | .pastDay => (tmax rows).map (fun m => m - secPerDay)
  | .pastWeek => (tmax rows).map (fun m => m - 7 * secPerDay)
  | .pastMonth => (tmax rows).map (fun m => m - 30 * secPerDay)
  | .pastYear => (tmax rows).map (fun m => m - 365 * secPerDay)
  | .allTime => tmin rows

/-- The pandas comparison `df[time_col] >= start_time`: false whenever either
side is `NaT`. -/
def timeGE : Option Int → Option Int → Bool
  | some a, some b => a ≥ b
  | _, none => false
  | none, _ => false

/-- The scope-filter step `df[df[time_col] >= start_time]`. -/
def scopeFilter (rows : List Row) (s : TimeScope) : List Row :=
  rows.filter (fun r => timeGE r.t (startTime rows s))

/-- The resampling rule map `{"Hourly":"1H", "Daily":"1D", "Weekly":"7D",
"Monthly":"30D"}`, as a bucket width in seconds. -/
def bucketWidth : Granularity → Int
  | .hourly => 3600
  | .daily => 86400
  | .weekly => 7 * 86400
  | .monthly => 30 * 86400

/-- Midnight of the day containing `t` (the pandas resampling origin
`start_day`). -/
def dayStart (t : Int) : Int :=
  secPerDay * (t.fdiv secPerDay)

/-- Cell of column `j` in a row (`none` when `j` is out of range, matching a
missing cell). -/
def colAt (j : Nat) (r : Row) : Option ℚ :=
  r.vals.getD j none

/-- Mean over the non-null entries of a column within one bucket; `none`
when the bucket holds no non-null entry for that column (pandas
`mean(skipna)` yields `NaN` there). -/
def colMean (xs : List (Option ℚ)) : Option ℚ :=
  let ys := xs.filterMap id
  if ys.length = 0 then none else some (ys.sum / (ys.length : ℚ))

/-- The output row of one resampling bin: bin `k` (with origin `o` and
width `w`) is labelled by its left edge `o + k * w` and carries, for each
requested column, the mean over the non-null cells of the timestamped rows
falling in the bin. -/
def bucketRow (timed : List (Int × List (Option ℚ))) (ncols : Nat)
    (o w k : Int) : OutRow :=
  { t := o + k * w
    vals := (List.range ncols).map (fun j =>
      colMean ((timed.filter (fun p => (p.1 - o).fdiv w == k)).map
        (fun p => p.2.getD j none))) }

/-- `df_filtered[numeric_cols].resample(rule).mean().reset_index()`:
rows without a timestamp cannot be indexed; the remaining timestamps are
binned into windows of width `bucketWidth g` anchored at midnight of the
day of the smallest timestamp; one output row is produced per bin from the
bin of the minimum up to the bin of the maximum (interior empty bins
included), carrying the per-column mean of the non-null cells falling in
that bin. -/
def resample (ncols : Nat) (rows : List Row) (g : Granularity) : List OutRow :=
  let timed := rows.filterMap (fun r => r.t.map (fun u => (u, r.vals)))
  match listMin (timed.map Prod.fst), listMax (timed.map Prod.fst) with
  | some lo, some hi =>
    let w := bucketWidth g
    let o := dayStart lo
    let kLo := (lo - o).fdiv w
    let kHi := (hi - o).fdiv w
    (List.range (kHi - kLo + 1).toNat).map
      (fun i : Nat => bucketRow timed ncols o w (kLo + (i : Int)))
  | _, _ => []

/-- The whole `filter_resample(df, time_col, numeric_cols)` helper, with
`ncols` the length of `numeric_cols`. -/
def filter_resample (ncols : Nat) (rows : List Row) (s : TimeScope)
    (g : Granularity) : List OutRow :=
  resample ncols (scopeFilter rows s) g

/-- Bool test used to state bucket membership as a half-open time window. -/
def inWindow (T w : Int) : Option Int → Bool
  | some u => decide (T ≤ u ∧ u < T + w)
  | none => false

/-- Lift a Bool test on timestamps to optional timestamps (`NaT` fails). -/
def optHolds (P : Int → Bool) : Option Int → Bool
  | some u => P u
  | none => false

/-- A cell value of an uploaded table: JSON/CSV scalars, parsed datetimes
(`Val.time`, seconds since epoch) and nulls (pandas `NaN`/`NaT`/JSON
null). -/
inductive Val where
  | null
  | str (s : String)
  | num (q : ℚ)
  | time (t : Int)
deriving DecidableEq

/-- One uploaded record: an association list of field name to value (one
JSON object of the `rows` payload / one CSV row). -/
abbrev RowRec := List (String × Val)

/-- The column set of `pd.DataFrame(rows)`: the union of the record keys,
in first-seen order. -/
def tableCols (t : List RowRec) : List String :=
  ((t.map (fun r => r.map Prod.fst)).flatten).dedup

/-- Reading cell `c` of a record; a key the record lacks reads as null
(pandas fills missing keys with `NaN`). -/
def getCell (r : RowRec) (c : String) : Val :=
  (r.lookup c).getD Val.null

/-- The name of the timestamp column. -/
def tsKey : String := "timestamp"

/-- The required-column set of `upload_csv` in `backend/main.py`. -/
def requiredCols : List String :=
  ["timestamp", "station_id", "station_name", "lat", "lon", "pollutant",
    "prediction", "lower_q", "upper_q"]

/-- `required - set(df.columns)`: the required columns the table lacks. -/
def missingRequired (cols : List String) : List String :=
  requiredCols.filter (fun c => !(cols.contains c))

/-- The backend's on-disk state: the parquet prediction table and the JSON
metadata sidecar, each independently present or absent. -/
structure BackendState where
  predFile : Option (List RowRec)
  metaFile : Option String
deriving DecidableEq

/-- The state before anything was ever written. -/
def emptyStore : BackendState := ⟨none, none⟩

/-- Outcome of an upload request: HTTP 200 with the received row count, an
HTTP 400 schema error carrying the full missing-column set, the HTTP 400
empty-payload rejection, or an uncaught conversion exception. -/
inductive UploadResult where
  | ok (rowsReceived : Nat)
  | schemaError (missing : List String)
  | emptyError
  | uncaught
deriving DecidableEq

/-- `pd.to_datetime` on one cell as used by `upload_json`: already-parsed
instants pass through, nulls become `NaT`; the remaining conversions
(string parsing, numeric epochs) are pandas library internals and the
model conservatively treats them as failing. -/
def toDatetime : Val → Option Val
  | .time t => some (.time t)
  | .null => some .null
  | _ => none

/-- `df["timestamp"] = pd.to_datetime(df["timestamp"])`: convert the
timestamp cell of every record that carries one; a failing cell raises and
aborts the request. -/
def convertTimestamps (rows : List RowRec) : Option (List RowRec) :=
  rows.mapM (fun r => r.mapM (fun kv =>
    if kv.1 == tsKey then (toDatetime kv.2).map (fun v => (kv.1, v))
    else some kv))

/-- `upload_csv` after pandas has parsed the CSV body into the frame `df`
(CSV parsing is the external library layer): validate that every required
column is present, answering HTTP 400 with the full missing set and leaving
the store untouched on failure; on success overwrite the parquet file and
the metadata sidecar (`write_meta` stamps the current instant `now`) and
acknowledge with the row count. -/
def upload_csv (now : String) (st : BackendState) (df : List RowRec) :
    BackendState × UploadResult :=
  if missingRequired (tableCols df) = [] then
    (⟨some df, some now⟩, .ok df.length)
  else
    (st, .schemaError (missingRequired (tableCols df)))

/-- `upload_json`: reject a missing or empty `rows` list with HTTP 400
("No rows in payload"); otherwise build the frame, convert the timestamp
column when present (a failing conversion raises and leaves the store
untouched), overwrite the store and the sidecar, and acknowledge — with no
required-column validation of any kind. -/
def upload_json (now : String) (st : BackendState)
    (payload : Option (List RowRec)) : BackendState × UploadResult :=
  match payload with
  | none => (st, .emptyError)
  | some [] => (st, .emptyError)
  | some rows =>
    if (tableCols rows).contains tsKey then
      match convertTimestamps rows with
      | none => (st, .uncaught)
      | some rows2 => (⟨some rows2, some now⟩, .ok rows2.length)
    else
      (⟨some rows, some now⟩, .ok rows.length)

/-- The decimal digit characters. -/
def digitList : List Char :=
  ['0', '1', '2', '3', '4', '5', '6', '7', '8', '9']

/-- Last decimal digit of `n`, as a character. -/
def digit (n : Nat) : Char :=
  digitList.getD (n % 10) '0'

/-- Two zero-padded decimal digits (`%m`, `%d`, `%H`, `%M`, `%S`). -/
def two (n : Nat) : List Char :=
  [digit (n / 10), digit n]

/-- Four zero-padded decimal digits (`%Y`). -/
def four (n : Nat) : List Char :=
  [digit (n / 1000), digit (n / 100), digit (n / 10), digit n]

/-- Civil `(year, month, day)` from a day count relative to 1970-01-01
(standard era decomposition of the proleptic Gregorian calendar). -/
def civilFromDays (z0 : Int) : Int × Int × Int :=
  let z := z0 + 719468
  let era := z.fdiv 146097
  let doe := z - era * 146097
  let yoe := (doe - doe.fdiv 1460 + doe.fdiv 36524 - doe.fdiv 146096).fdiv 365
  let y := yoe + era * 400
  let doy := doe - (365 * yoe + yoe.fdiv 4 - yoe.fdiv 100)
  let mp := (5 * doy + 2).fdiv 153
  let d := doy - (153 * mp + 2).fdiv 5 + 1
  let m := mp + (if mp < 10 then 3 else -9)
  (y + (if m ≤ 2 then 1 else 0), m, d)

/-- Civil date-time components of an epoch-seconds instant. -/
structure CivilDT where
  year : Nat
  month : Nat
  day : Nat
  hour : Nat
  minute : Nat
  second : Nat

/-- Split an epoch-seconds instant into civil components. -/
def civilFromSecs (t : Int) : CivilDT :=
  let days := t.fdiv 86400
  let sod := (t.fmod 86400).toNat
  let c := civilFromDays days
  ⟨c.1.toNat, c.2.1.toNat, c.2.2.toNat, sod / 3600, sod % 3600 / 60, sod % 60⟩

/-- `dt.strftime("%Y-%m-%d %H:%M:%S")` on one instant. -/
def strftimeYMDHMS (t : Int) : String :=
  let c := civilFromSecs t
  String.mk (four c.year ++ '-' :: (two c.month ++ '-' :: (two c.day
    ++ ' ' :: (two c.hour ++ ':' :: (two c.minute ++ ':' :: two c.second)))))

/-- Whether a cell belongs to a datetime-typed column (instant or `NaT`). -/
def isDatetimeCell : Val → Bool
  | .time _ => true
  | .null => true
  | _ => false

/-- `.dt.strftime` on one cell: instants become the fixed-format string,
`NaT` becomes `NaN`. -/
def serializeCell : Val → Val
  | .time t => .str (strftimeYMDHMS t)
  | v => v

/-- One record after the timestamp column is replaced by its string form
(`df["timestamp"] = df["timestamp"].dt.strftime(...)`). -/
def serializeRow (r : RowRec) : RowRec :=
  r.map (fun kv => if kv.1 == tsKey then (kv.1, serializeCell kv.2) else kv)

/-- Response shape of `GET /predictions`. -/
structure PredResponse where
  last_update : Option String
  rows : List RowRec
deriving DecidableEq

/-- `read_meta`: the sidecar value when the file exists, otherwise a null
last-update (`write_meta` always stores a string, so a present sidecar
carries a string). -/
def read_meta (st : BackendState) : Option String :=
  st.metaFile

/-- `GET /predictions`: a missing parquet file is the valid empty state
(null last-update, no rows, regardless of the sidecar); otherwise the frame
is loaded and its timestamp column formatted via `.dt.strftime` — an access
that raises (HTTP 500) when the frame has no `timestamp` column, or when
that column is not datetime-typed. -/
def get_predictions (st : BackendState) : Except String PredResponse :=
  match st.predFile with
  | none => .ok ⟨none, []⟩
  | some df =>
    if (tableCols df).contains tsKey then
      if df.all (fun r => isDatetimeCell (getCell r tsKey)) then
        .ok ⟨read_meta st, df.map serializeRow⟩
      else .error ("AttributeError")
    else .error ("KeyError")

/-- One row of `stations.csv` as used by the map subtab: the station name,
the observation timestamp (column `to` of the source, named `toTs` here
since `to` is reserved; `none` is `NaT`), and the pollutant reading the
marker color is derived from. -/
structure StationRow where
  station : String
  toTs : Option Int
  reading : Option ℚ
deriving DecidableEq

/-- Ascending comparison on optional timestamps with `NaT` ordered last
(pandas `sort_values` default `na_position="last"`). -/
def toLE : Option Int → Option Int → Bool
  | some a, some b => a ≤ b
  | some _, none => true
  | none, some _ => false
  | none, none => true

/-- Strict version of `toLE`. -/
def toLT (a b : Option Int) : Bool :=
  !(toLE b a)

/-- Insertion step of the executable sort refinement: the new row goes
before the first resident row not strictly below it.  pandas guarantees
only a sorted permutation (its default quicksort is unstable on ties), so
this insertion sort is one admissible refinement; no snapshot theorem
below depends on which tied row this refinement places first. -/
def insertByTo (r : StationRow) : List StationRow → List StationRow
  | [] => [r]
  | x :: xs => if toLT x.toTs r.toTs then x :: insertByTo r xs else r :: x :: xs

/-- `stations_df.sort_values("to")` modelled up to its documented
guarantee: the result is a permutation of the rows, sorted ascending on
the `to` key with missing values last (default `na_position`); the tie
order is unspecified (default `kind="quicksort"`, unstable).  The
executable refinement used here is an insertion sort; `sortByTo_perm` and
`pairwise_sortByTo` show it satisfies the guarantee, and the snapshot
theorems (`snapshot_sortedPerm`) hold for every list satisfying it. -/
def sortByTo : List StationRow → List StationRow
  | [] => []
  | x :: xs => insertByTo x (sortByTo xs)

/-- `drop_duplicates("station", keep="last")`: keep the last occurrence of
each station value, preserving the order of the kept rows. -/
def dropDupKeepLast : List StationRow → List StationRow
  | [] => []
  | x :: xs =>
    if xs.any (fun y => y.station == x.station) then dropDupKeepLast xs
    else x :: dropDupKeepLast xs

/-- `latest_station_data`, the station snapshot:
`stations_df.sort_values("to").drop_duplicates("station", keep="last")`,
executed over the insertion-sort refinement of `sort_values`; the claims
proved about it are established for every sorted permutation, so they do
not depend on that refinement's tie order. -/
def latest_station_data (rows : List StationRow) : List StationRow :=
  dropDupKeepLast (sortByTo rows)

/-- `get_color` of the map subtab: gray `[180,180,180]` for null/NaN
readings, green `[0,255,0]` below 40, yellow `[255,255,0]` from 40 below
80, red `[255,0,0]` from 80 upward. -/
def get_color (val : Option ℚ) : List Nat :=
  match val with
  | none => [180, 180, 180]
  | some v =>
    if v < 40 then [0, 255, 0]
    else if v < 80 then [255, 255, 0]
    else [255, 0, 0]

/-- `listMax` is `none` exactly on the empty list. -/
theorem listMax_eq_none (l : List Int) : listMax l = none ↔ l = [] := by
  cases l with
  | nil => simp [listMax]
  | cons a l =>
    simp only [listMax]
    cases listMax l <;> simp

/-- `listMin` is `none` exactly on the empty list. -/
theorem listMin_eq_none (l : List Int) : listMin l = none ↔ l = [] := by
  cases l with
  | nil => simp [listMin]
  | cons a l =>
    simp only [listMin]
    cases listMin l <;> simp

/-- `listMax l = some m` means `m` bounds every element of `l` from above. -/
theorem listMax_le (l : List Int) : ∀ (m : Int), listMax l = some m →
    ∀ x ∈ l, x ≤ m := by
  induction l with
  | nil => intro m h; simp [listMax] at h
  | cons a l ih =>
    intro m h x hx
    simp only [listMax] at h
    rcases List.mem_cons.mp hx with rfl | hx
    · cases hl : listMax l with
      | none => rw [hl] at h; simp at h; omega
      | some m0 => rw [hl] at h; simp at h; omega
    · cases hl : listMax l with
      | none =>
        exfalso
        rw [listMax_eq_none] at hl
        subst hl
        simp at hx
      | some m0 =>
        rw [hl] at h
        simp at h
        have := ih m0 hl x hx
        omega

/-- `listMin l = some m` means `m` bounds every element of `l` from below. -/
theorem listMin_le (l : List Int) : ∀ (m : Int), listMin l = some m →
    ∀ x ∈ l, m ≤ x := by
  induction l with
  | nil => intro m h; simp [listMin] at h
  | cons a l ih =>
    intro m h x hx
    simp only [listMin] at h
    rcases List.mem_cons.mp hx with rfl | hx
    · cases hl : listMin l with
      | none => rw [hl] at h; simp at h; omega
      | some m0 => rw [hl] at h; simp at h; omega
    · cases hl : listMin l with
      | none =>
        exfalso
        rw [listMin_eq_none] at hl
        subst hl
        simp at hx
      | some m0 =>
        rw [hl] at h
        simp at h
        have := ih m0 hl x hx
        omega

/-- A nonempty list of timestamps has a minimum. -/
theorem listMin_isSome (l : List Int) (h : l ≠ []) :
    ∃ m, listMin l = some m := by
  cases hl : listMin l with
  | none => exact absurd ((listMin_eq_none l).mp hl) h
  | some m => exact ⟨m, rfl⟩

/-- C1: for a series with at least one timestamp, the scope filter computes
`startTime` as the series' own maximum timestamp minus a fixed lookback —
Past Day: 1 day, Past Week: 7 days, Past Month: 30 days, Past Year: 365
days, and All Time: the series minimum — and retains exactly the rows whose
timestamp is `>= startTime`.  The reference point is the series' latest
timestamp `M`, not wall-clock now (no clock appears in the statement). -/
theorem scope_filter_window (rows : List Row) (s : TimeScope) (M m : Int)
    (hM : tmax rows = some M) (hm : tmin rows = some m) :
    scopeFilter rows s = rows.filter (fun r =>
      timeGE r.t (some (match s with
        | .pastDay => M - 86400
        | .pastWeek => M - 7 * 86400
        | .pastMonth => M - 30 * 86400
        | .pastYear => M - 365 * 86400
        | .allTime => m))) := by
  cases s <;> simp [scopeFilter, startTime, hM, hm, secPerDay]

/-- Witness for C1 at a concrete two-row series and scope Past Day. -/
theorem scope_filter_window_witness :
    scopeFilter [⟨some 0, []⟩, ⟨some 100000, []⟩] .pastDay
      = [⟨some 0, []⟩, ⟨some 100000, []⟩].filter (fun r =>
          timeGE r.t (some ((100000 : Int) - 86400))) :=
  scope_filter_window [⟨some 0, []⟩, ⟨some 100000, []⟩] .pastDay 100000 0
    (by decide) (by decide)

/-- C3: on the empty input series the pipeline returns the empty sequence
for every scope and granularity, and (being a total Lean function) raises
nothing.  In the code `max()` on the empty column evaluates to `NaT`, the
`>=` comparison then retains no row, and resampling the empty frame yields
the empty frame; the observable contract of the claim holds. -/
theorem pipeline_empty_input (ncols : Nat) (s : TimeScope) (g : Granularity) :
    filter_resample ncols [] s g = [] := by
  cases s <;> cases g <;> rfl

/-- C4: with scope `All Time` on a series in which every row carries a
timestamp, the scope-filter step is a no-op — every input row is retained —
and the whole pipeline coincides with resampling the unfiltered input. -/
theorem alltime_filter_noop (rows : List Row)
    (hnn : ∀ r ∈ rows, r.t ≠ none) :
    scopeFilter rows .allTime = rows ∧
    ∀ (ncols : Nat) (g : Granularity),
      filter_resample ncols rows .allTime g = resample ncols rows g := by
  have hfil : scopeFilter rows .allTime = rows := by
    cases hrows : rows with
    | nil => rfl
    | cons r0 rs =>
      rw [← hrows]
      apply List.filter_eq_self.mpr
      intro r hr
      have ht : r.t ≠ none := hnn r hr
      obtain ⟨u, hu⟩ : ∃ u, r.t = some u := by
        cases h : r.t with
        | none => exact absurd h ht
        | some u => exact ⟨u, rfl⟩
      have hne : rows.filterMap Row.t ≠ [] := by
        intro hemp
        have : u ∈ rows.filterMap Row.t := by
          apply List.mem_filterMap.mpr
          exact ⟨r, hr, hu⟩
        rw [hemp] at this
        simp at this
      obtain ⟨m, hmin⟩ := listMin_isSome _ hne
      have hle : m ≤ u := by
        apply listMin_le _ m hmin
        exact List.mem_filterMap.mpr ⟨r, hr, hu⟩
      simp [startTime, tmin, hmin, timeGE, hu]
      omega
  refine ⟨hfil, fun ncols g => ?_⟩
  unfold filter_resample
  rw [hfil]

/-- Witness for C4 at a concrete two-row series. -/
theorem alltime_filter_noop_witness :
    scopeFilter [⟨some 5, [some 1]⟩, ⟨some 9, [none]⟩] .allTime
        = [⟨some 5, [some 1]⟩, ⟨some 9, [none]⟩] ∧
    ∀ (ncols : Nat) (g : Granularity),
      filter_resample ncols [⟨some 5, [some 1]⟩, ⟨some 9, [none]⟩] .allTime g
        = resample ncols [⟨some 5, [some 1]⟩, ⟨some 9, [none]⟩] g :=
  alltime_filter_noop [⟨some 5, [some 1]⟩, ⟨some 9, [none]⟩] (by decide)

/-- Floor division characterizes bin membership: for a positive width the
quotient is `k` exactly when the value lies in the half-open window
`[k*w, (k+1)*w)`. -/
theorem fdiv_eq_iff_of_pos {w : Int} (hw : 0 < w) (a k : Int) :
    a.fdiv w = k ↔ k * w ≤ a ∧ a < (k + 1) * w := by
  rw [Int.fdiv_eq_ediv a (le_of_lt hw)]
  have h1 := Int.ediv_add_emod a w
  have h2 := Int.emod_nonneg a (by omega : w ≠ 0)
  have h3 := Int.emod_lt_of_pos a hw
  constructor
  · rintro rfl
    constructor <;> nlinarith
  · rintro ⟨hk1, hk2⟩
    have hlo : a / w < k + 1 := by
      have hmul : (a / w) * w < (k + 1) * w := by nlinarith
      exact lt_of_mul_lt_mul_right hmul (by omega)
    have hhi : k < a / w + 1 := by
      have hmul : k * w < (a / w + 1) * w := by nlinarith
      exact lt_of_mul_lt_mul_right hmul (by omega)
    omega

/-- Floor division by a positive width is monotone. -/
theorem fdiv_mono_of_pos {w : Int} (hw : 0 < w) {a b : Int} (hab : a ≤ b) :
    a.fdiv w ≤ b.fdiv w := by
  rw [Int.fdiv_eq_ediv a (le_of_lt hw), Int.fdiv_eq_ediv b (le_of_lt hw)]
  exact Int.ediv_le_ediv hw hab

/-- Every granularity maps to a positive bucket width. -/
theorem bucketWidth_pos (g : Granularity) : 0 < bucketWidth g := by
  cases g <;> decide

/-- `getD` below the length of a mapped range picks out the function value. -/
theorem getD_map_range {α : Type} (n j : Nat) (hj : j < n) (f : Nat → α)
    (d : α) : ((List.range n).map f).getD j d = f j := by
  simp [List.getD, List.getElem?_map, List.getElem?_range, hj]

/-- Projecting the bucket filter through the timestamp extraction: filtering
the timestamped pairs by a test on the timestamp and reading column `j`
equals filtering the original rows (rows without a timestamp fail the test)
and reading column `j`. -/
theorem timed_filter_map (l : List Row) (P : Int → Bool) (j : Nat) :
    (((l.filterMap (fun r => r.t.map (fun u => (u, r.vals)))).filter
        (fun p => P p.1)).map (fun p => p.2.getD j none))
      = ((l.filter (fun x => optHolds P x.t)).map (colAt j)) := by
  induction l with
  | nil => rfl
  | cons r l ih =>
    cases ht : r.t with
    | none =>
      have h1 : List.filterMap (fun r => Option.map (fun u => (u, r.vals)) r.t) (r :: l)
          = List.filterMap (fun r => Option.map (fun u => (u, r.vals)) r.t) l := by
        rw [List.filterMap_cons, ht]
        rfl
      have h2 : List.filter (fun x => optHolds P x.t) (r :: l)
          = List.filter (fun x => optHolds P x.t) l := by
        rw [List.filter_cons]
        simp [ht, optHolds]
      rw [h1, h2]
      exact ih
    | some u =>
      have h1 : List.filterMap (fun r => Option.map (fun u => (u, r.vals)) r.t) (r :: l)
          = (u, r.vals) :: List.filterMap (fun r => Option.map (fun u => (u, r.vals)) r.t) l := by
        rw [List.filterMap_cons, ht]
        rfl
      by_cases hP : P u
      · have h2 : List.filter (fun x => optHolds P x.t) (r :: l)
            = r :: List.filter (fun x => optHolds P x.t) l := by
          rw [List.filter_cons]
          simp [ht, optHolds, hP]
        have h3 : List.filter (fun p => P p.1)
              ((u, r.vals) :: List.filterMap (fun r => Option.map (fun u => (u, r.vals)) r.t) l)
            = (u, r.vals) :: List.filter (fun p => P p.1)
                (List.filterMap (fun r => Option.map (fun u => (u, r.vals)) r.t) l) := by
          rw [List.filter_cons]
          simp [hP]
        rw [h1, h3, h2, List.map_cons, List.map_cons, ih]
        rfl
      · have h2 : List.filter (fun x => optHolds P x.t) (r :: l)
            = List.filter (fun x => optHolds P x.t) l := by
          rw [List.filter_cons]
          simp [ht, optHolds, hP]
        have h3 : List.filter (fun p => P p.1)
              ((u, r.vals) :: List.filterMap (fun r => Option.map (fun u => (u, r.vals)) r.t) l)
            = List.filter (fun p => P p.1)
                (List.filterMap (fun r => Option.map (fun u => (u, r.vals)) r.t) l) := by
          rw [List.filter_cons]
          simp [hP]
        rw [h1, h3, h2]
        exact ih

/-- The floor-division bin test coincides with the half-open window test at
the bin's left edge. -/
theorem bucket_pred_eq_inWindow {w : Int} (hw : 0 < w) (o k u : Int) :
    ((u - o).fdiv w == k) = inWindow (o + k * w) w (some u) := by
  simp only [inWindow]
  rw [Bool.eq_iff_iff]
  simp only [beq_iff_eq, decide_eq_true_eq]
  rw [fdiv_eq_iff_of_pos hw]
  have hx : (k + 1) * w = k * w + w := by ring
  constructor
  · rintro ⟨ha, hb⟩
    constructor <;> omega
  · rintro ⟨ha, hb⟩
    constructor <;> omega

/-- Full contract of the resampling step on an already-filtered series:
every output row has one cell per requested column, each cell is the mean
of the non-null cells of that column over the rows falling in the row's
half-open window (so a window with no non-null cells for a column yields a
null cell, not zero and not an interpolation); the output timestamps form a
contiguous chain stepping by exactly one bucket width (interior empty
windows included); and every timestamped input row falls in the window of
some output row. -/
theorem resample_contract (ncols : Nat) (l : List Row) (g : Granularity) :
    (∀ r ∈ resample ncols l g,
      r.vals.length = ncols ∧
      ∀ j, j < ncols → r.vals.getD j none
        = colMean ((l.filter (fun x => inWindow r.t (bucketWidth g) x.t)).map (colAt j))) ∧
    List.Chain' (fun a b => b = a + bucketWidth g) ((resample ncols l g).map OutRow.t) ∧
    (∀ x ∈ l, ∀ u, x.t = some u →
      ∃ q, q ∈ resample ncols l g ∧ q.t ≤ u ∧ u < q.t + bucketWidth g) := by
  have hw : 0 < bucketWidth g := bucketWidth_pos g
  cases hmin : listMin ((l.filterMap (fun r => r.t.map (fun u => (u, r.vals)))).map Prod.fst) with
  | none =>
    have hempty : (l.filterMap (fun r => r.t.map (fun u => (u, r.vals)))).map Prod.fst = [] :=
      (listMin_eq_none _).mp hmin
    have hres : resample ncols l g = [] := by
      cases hmax2 : listMax ((l.filterMap (fun r => r.t.map (fun u => (u, r.vals)))).map Prod.fst) with
      | none => simp only [resample]; rw [hmin, hmax2]
      | some hi => simp only [resample]; rw [hmin, hmax2]
    refine ⟨?_, ?_, ?_⟩
    · intro r hr
      rw [hres] at hr
      simp at hr
    · rw [hres]
      simp
    · intro x hx u hu
      exfalso
      have hmem : u ∈ (l.filterMap (fun r => r.t.map (fun u => (u, r.vals)))).map Prod.fst := by
        apply List.mem_map.mpr
        refine ⟨(u, x.vals), ?_, rfl⟩
        apply List.mem_filterMap.mpr
        exact ⟨x, hx, by rw [hu]; rfl⟩
      rw [hempty] at hmem
      simp at hmem
  | some lo =>
    cases hmaxx : listMax ((l.filterMap (fun r => r.t.map (fun u => (u, r.vals)))).map Prod.fst) with
    | none =>
      exfalso
      have h1 := (listMax_eq_none _).mp hmaxx
      rw [h1] at hmin
      simp [listMin] at hmin
    | some hi =>
      have hres : resample ncols l g
          = (List.range ((((hi - dayStart lo).fdiv (bucketWidth g))
                - ((lo - dayStart lo).fdiv (bucketWidth g)) + 1).toNat)).map
              (fun i : Nat => bucketRow (l.filterMap (fun r => r.t.map (fun u => (u, r.vals)))) ncols
                (dayStart lo) (bucketWidth g) (((lo - dayStart lo).fdiv (bucketWidth g)) + (i : Int))) := by
        simp only [resample]
        rw [hmin, hmaxx]
      refine ⟨?_, ?_, ?_⟩
      · intro r hr
        rw [hres] at hr
        obtain ⟨i, hi_mem, rfl⟩ := List.mem_map.mp hr
        have hi_lt := List.mem_range.mp hi_mem
        constructor
        · simp [bucketRow]
        · intro j hj
          simp only [bucketRow]
          rw [getD_map_range ncols j hj]
          rw [timed_filter_map l
            (fun v => (v - dayStart lo).fdiv (bucketWidth g)
              == ((lo - dayStart lo).fdiv (bucketWidth g)) + i) j]
          congr 1
          congr 1
          apply List.filter_congr
          intro x hx
          cases hxt : x.t with
          | none => rfl
          | some u =>
            exact bucket_pred_eq_inWindow hw (dayStart lo)
              (((lo - dayStart lo).fdiv (bucketWidth g)) + i) u
      · rw [hres, List.map_map]
        apply List.chain'_iff_get.mpr
        intro i hig
        simp only [List.length_map, List.length_range] at hig
        simp only [List.get_eq_getElem, List.getElem_map, List.getElem_range,
          Function.comp_apply, bucketRow]
        push_cast
        ring
      · intro x hx u hu
        have hmem : u ∈ (l.filterMap (fun r => r.t.map (fun u => (u, r.vals)))).map Prod.fst := by
          apply List.mem_map.mpr
          refine ⟨(u, x.vals), ?_, rfl⟩
          apply List.mem_filterMap.mpr
          exact ⟨x, hx, by rw [hu]; rfl⟩
        have hlo2 : lo ≤ u := listMin_le _ lo hmin u hmem
        have hhi2 : u ≤ hi := listMax_le _ hi hmaxx u hmem
        have hklo : ((lo - dayStart lo).fdiv (bucketWidth g)) ≤ (u - dayStart lo).fdiv (bucketWidth g) :=
          fdiv_mono_of_pos hw (by omega)
        have hkhi : (u - dayStart lo).fdiv (bucketWidth g) ≤ (hi - dayStart lo).fdiv (bucketWidth g) :=
          fdiv_mono_of_pos hw (by omega)
        have hchar := (fdiv_eq_iff_of_pos hw (u - dayStart lo)
          ((u - dayStart lo).fdiv (bucketWidth g))).mp rfl
        have hexp : ((u - dayStart lo).fdiv (bucketWidth g) + 1) * bucketWidth g
            = ((u - dayStart lo).fdiv (bucketWidth g)) * bucketWidth g + bucketWidth g := by
          ring
        refine ⟨bucketRow (l.filterMap (fun r => r.t.map (fun u => (u, r.vals)))) ncols
          (dayStart lo) (bucketWidth g) ((u - dayStart lo).fdiv (bucketWidth g)), ?_, ?_, ?_⟩
        · rw [hres]
          apply List.mem_map.mpr
          refine ⟨((u - dayStart lo).fdiv (bucketWidth g)
              - (lo - dayStart lo).fdiv (bucketWidth g)).toNat, List.mem_range.mpr (by omega), ?_⟩
          congr 1
          omega
        · simp only [bucketRow]
          have h1 := hchar.1
          linarith
        · simp only [bucketRow]
          have h2 := hchar.2
          linarith

/-- C2 counterexample: with two retained samples two days apart and daily
granularity, the bucket `[86400, 172800)` contains zero retained samples,
yet the pipeline emits an output row for it (with a null cell) — refuting
the claim that such a bucket produces no output row at all. -/
theorem resample_empty_bucket_cex :
    (filter_resample 1 [⟨some 0, [some 1]⟩, ⟨some 172800, [some 3]⟩]
        .allTime .daily).map OutRow.t = [0, 86400, 172800] ∧
    ((filter_resample 1 [⟨some 0, [some 1]⟩, ⟨some 172800, [some 3]⟩]
        .allTime .daily).map OutRow.vals).getD 1 [] = [none] ∧
    ([⟨some 0, [some 1]⟩, ⟨some 172800, [some 3]⟩] : List Row).filter
      (fun x => inWindow 86400 86400 x.t) = [] := by
  refine ⟨by decide, by decide, by decide⟩

/-- C2 (amended): every output row of the pipeline has one cell per
requested column, holding the arithmetic mean of that column's non-null
cells over the rows retained by the scope filter that fall in the row's
bucket window — in particular a column with no populated cell in the bucket
is emitted as null while other columns of the same row keep their means;
the output rows step by exactly one bucket width (1h/1d/7d/30d), so a
bucket between the first and last retained sample with zero samples is
emitted as an all-null row rather than skipped, zero-filled or
interpolated; and every retained sample falls in the window of some output
row. -/
theorem resample_bucket_contract (ncols : Nat) (rows : List Row)
    (s : TimeScope) (g : Granularity) (r : OutRow)
    (h : r ∈ filter_resample ncols rows s g) :
    (r.vals.length = ncols ∧
      ∀ j, j < ncols → r.vals.getD j none
        = colMean (((scopeFilter rows s).filter
            (fun x => inWindow r.t (bucketWidth g) x.t)).map (colAt j))) ∧
    List.Chain' (fun a b => b = a + bucketWidth g)
      ((filter_resample ncols rows s g).map OutRow.t) ∧
    (∀ x ∈ scopeFilter rows s, ∀ u, x.t = some u →
      ∃ q, q ∈ filter_resample ncols rows s g ∧ q.t ≤ u ∧ u < q.t + bucketWidth g) := by
  obtain ⟨h1, h2, h3⟩ := resample_contract ncols (scopeFilter rows s) g
  exact ⟨h1 r h, h2, h3⟩

/-- Witness for C2 (amended) at a one-row series, scope Past Day, hourly
granularity. -/
theorem resample_bucket_contract_witness :
    ((OutRow.mk 3600 [none]).vals.length = 1 ∧
      ∀ j, j < 1 → (OutRow.mk 3600 [none]).vals.getD j none
        = colMean (((scopeFilter [⟨some 3600, [none]⟩] .pastDay).filter
            (fun x => inWindow (OutRow.mk 3600 [none]).t (bucketWidth .hourly) x.t)).map (colAt j))) ∧
    List.Chain' (fun a b => b = a + bucketWidth .hourly)
      ((filter_resample 1 [⟨some 3600, [none]⟩] .pastDay .hourly).map OutRow.t) ∧
    (∀ x ∈ scopeFilter [⟨some 3600, [none]⟩] .pastDay, ∀ u, x.t = some u →
      ∃ q, q ∈ filter_resample 1 [⟨some 3600, [none]⟩] .pastDay .hourly ∧
        q.t ≤ u ∧ u < q.t + bucketWidth .hourly) :=
  resample_bucket_contract 1 [⟨some 3600, [none]⟩] .pastDay .hourly
    (OutRow.mk 3600 [none]) (by decide)

/-- C6: whenever an uploaded table misses at least one required field, the
`upload_csv` validation rejects it with a schema error whose detail carries
exactly the complete set of missing required fields (every missing field,
not only the first one found), and the store is left untouched. -/
theorem upload_csv_reports_all_missing (now : String) (st : BackendState)
    (df : List RowRec) (c0 : String) (hc0 : c0 ∈ requiredCols)
    (hmiss : c0 ∉ tableCols df) :
    (upload_csv now st df).2 = .schemaError (missingRequired (tableCols df)) ∧
    (upload_csv now st df).1 = st ∧
    ∀ c, c ∈ missingRequired (tableCols df) ↔
      (c ∈ requiredCols ∧ c ∉ tableCols df) := by
  have hmem : ∀ c cols, c ∈ missingRequired cols ↔ (c ∈ requiredCols ∧ c ∉ cols) := by
    intro c cols
    simp [missingRequired, List.mem_filter, List.elem_iff]
  have hne : missingRequired (tableCols df) ≠ [] := by
    intro h
    have : c0 ∈ missingRequired (tableCols df) := (hmem c0 _).mpr ⟨hc0, hmiss⟩
    rw [h] at this
    simp at this
  refine ⟨?_, ?_, fun c => hmem c _⟩
  · simp [upload_csv, hne]
  · simp [upload_csv, hne]

/-- Witness for C6: a table whose single record carries only `station_id`
is rejected with the other eight required columns all reported at once. -/
theorem upload_csv_reports_all_missing_witness :
    (upload_csv ("2024-01-01T00:00:00") emptyStore
        [[(("station_id"), Val.str ("S1"))]]).2
      = .schemaError (missingRequired (tableCols [[(("station_id"), Val.str ("S1"))]])) ∧
    (upload_csv ("2024-01-01T00:00:00") emptyStore
        [[(("station_id"), Val.str ("S1"))]]).1 = emptyStore ∧
    ∀ c, c ∈ missingRequired (tableCols [[(("station_id"), Val.str ("S1"))]]) ↔
      (c ∈ requiredCols ∧ c ∉ tableCols [[(("station_id"), Val.str ("S1"))]]) :=
  upload_csv_reports_all_missing ("2024-01-01T00:00:00") emptyStore
    [[(("station_id"), Val.str ("S1"))]] ("timestamp") (by decide) (by decide)

/-- C5 counterexample: a one-record payload missing eight of the nine
required fields is accepted by `upload_json` (HTTP 200) and stored
verbatim, while the `upload_csv` validation on the very same table answers
HTTP 400 with the full missing set — so `upload_json` does not apply the
same required-column validation as `upload_csv`. -/
theorem upload_json_skips_validation_cex :
    (upload_json ("2024-01-01T00:00:00") emptyStore
        (some [[(("station_id"), Val.str ("S1"))]])).2 = .ok 1 ∧
    (upload_json ("2024-01-01T00:00:00") emptyStore
        (some [[(("station_id"), Val.str ("S1"))]])).1.predFile
      = some [[(("station_id"), Val.str ("S1"))]] ∧
    (upload_csv ("2024-01-01T00:00:00") emptyStore
        [[(("station_id"), Val.str ("S1"))]]).2
      = .schemaError ["timestamp", "station_name", "lat", "lon", "pollutant",
          "prediction", "lower_q", "upper_q"] := by
  refine ⟨by decide, by decide, by decide⟩

/-- C5 (amended): `upload_json` rejects a missing or empty `rows` list with
HTTP 400, and beyond that performs no required-column validation at all —
in no execution does it produce a missing-columns schema error.  A nonempty
rows list without a timestamp column is stored verbatim and acknowledged
with its row count, no matter which required fields it lacks; one with a
timestamp column is likewise stored, after the `pd.to_datetime` column
conversion, whenever that conversion succeeds; and when the conversion
raises, the request fails as an uncaught exception without touching the
store — missing required columns are never checked or reported on any of
these paths. -/
theorem upload_json_contract (now : String) (st : BackendState)
    (payload : Option (List RowRec)) :
    ((payload = none ∨ payload = some []) →
      upload_json now st payload = (st, .emptyError)) ∧
    (∀ rows, payload = some rows → rows ≠ [] →
      (tableCols rows).contains tsKey = false →
      upload_json now st payload = (⟨some rows, some now⟩, .ok rows.length)) ∧
    (∀ rows rows2, payload = some rows → rows ≠ [] →
      (tableCols rows).contains tsKey = true →
      convertTimestamps rows = some rows2 →
      upload_json now st payload = (⟨some rows2, some now⟩, .ok rows2.length)) ∧
    (∀ rows, payload = some rows → rows ≠ [] →
      (tableCols rows).contains tsKey = true →
      convertTimestamps rows = none →
      upload_json now st payload = (st, .uncaught)) ∧
    (∀ m, (upload_json now st payload).2 ≠ .schemaError m) := by
  refine ⟨?_, ?_, ?_, ?_, ?_⟩
  · rintro (rfl | rfl) <;> rfl
  · rintro rows rfl hne hcol
    cases rows with
    | nil => simp at hne
    | cons r rs =>
      have hnm : tsKey ∉ tableCols (r :: rs) := by
        intro hm
        have hc : (tableCols (r :: rs)).contains tsKey = true := List.elem_iff.mpr hm
        rw [hc] at hcol
        exact Bool.noConfusion hcol
      simp [upload_json, hnm]
  · rintro rows rows2 rfl hne hcol hconv
    cases rows with
    | nil => simp at hne
    | cons r rs =>
      have hm : tsKey ∈ tableCols (r :: rs) := List.elem_iff.mp hcol
      simp [upload_json, hm, hconv]
  · rintro rows rfl hne hcol hconv
    cases rows with
    | nil => simp at hne
    | cons r rs =>
      have hm : tsKey ∈ tableCols (r :: rs) := List.elem_iff.mp hcol
      simp [upload_json, hm, hconv]
  · intro m
    cases payload with
    | none => simp [upload_json]
    | some rows =>
      cases rows with
      | nil => simp [upload_json]
      | cons r rs =>
        simp only [upload_json]
        by_cases hc : tsKey ∈ tableCols (r :: rs)
        · rw [if_pos (List.elem_iff.mpr hc)]
          cases hcv : convertTimestamps (r :: rs) <;> simp
        · rw [if_neg (fun hb => hc (List.elem_iff.mp hb))]
          simp

/-- Witness for C5 (amended) at a concrete payload that carries a
timestamp field but misses seven other required columns. -/
theorem upload_json_contract_witness :
    (((some [[(("station_id"), Val.str ("S1")), (("timestamp"), Val.time 0)]]
          : Option (List RowRec)) = none ∨
        (some [[(("station_id"), Val.str ("S1")), (("timestamp"), Val.time 0)]]
          : Option (List RowRec)) = some []) →
      upload_json ("2024-01-01T00:00:00") emptyStore
        (some [[(("station_id"), Val.str ("S1")), (("timestamp"), Val.time 0)]])
        = (emptyStore, .emptyError)) ∧
    (∀ rows, (some [[(("station_id"), Val.str ("S1")), (("timestamp"), Val.time 0)]]
        : Option (List RowRec)) = some rows →
      rows ≠ [] → (tableCols rows).contains tsKey = false →
      upload_json ("2024-01-01T00:00:00") emptyStore
          (some [[(("station_id"), Val.str ("S1")), (("timestamp"), Val.time 0)]])
        = (⟨some rows, some ("2024-01-01T00:00:00")⟩, .ok rows.length)) ∧
    (∀ rows rows2, (some [[(("station_id"), Val.str ("S1")), (("timestamp"), Val.time 0)]]
        : Option (List RowRec)) = some rows →
      rows ≠ [] → (tableCols rows).contains tsKey = true →
      convertTimestamps rows = some rows2 →
      upload_json ("2024-01-01T00:00:00") emptyStore
          (some [[(("station_id"), Val.str ("S1")), (("timestamp"), Val.time 0)]])
        = (⟨some rows2, some ("2024-01-01T00:00:00")⟩, .ok rows2.length)) ∧
    (∀ rows, (some [[(("station_id"), Val.str ("S1")), (("timestamp"), Val.time 0)]]
        : Option (List RowRec)) = some rows →
      rows ≠ [] → (tableCols rows).contains tsKey = true →
      convertTimestamps rows = none →
      upload_json ("2024-01-01T00:00:00") emptyStore
          (some [[(("station_id"), Val.str ("S1")), (("timestamp"), Val.time 0)]])
        = (emptyStore, .uncaught)) ∧
    (∀ m, (upload_json ("2024-01-01T00:00:00") emptyStore
        (some [[(("station_id"), Val.str ("S1")), (("timestamp"), Val.time 0)]])).2
      ≠ .schemaError m) :=
  upload_json_contract ("2024-01-01T00:00:00") emptyStore
    (some [[(("station_id"), Val.str ("S1")), (("timestamp"), Val.time 0)]])

/-- C7 counterexample: two reachable store states on which
`GET /predictions` raises instead of returning a response.  First,
`upload_json` accepts a one-record payload that has no timestamp field
(HTTP 200), after which the endpoint raises a `KeyError` (HTTP 500).
Second, `upload_csv` accepts a table that has every required column but an
unparseable timestamp value — `read_csv(parse_dates=...)` silently leaves
such a column object-typed and the validation only checks column presence
— after which the `.dt` accessor raises an `AttributeError` (HTTP 500). -/
theorem get_predictions_error_cex :
    (upload_json ("2024-01-01T00:00:00") emptyStore
        (some [[(("station_id"), Val.str ("S1"))]])).2 = .ok 1 ∧
    get_predictions (upload_json ("2024-01-01T00:00:00") emptyStore
        (some [[(("station_id"), Val.str ("S1"))]])).1 = .error ("KeyError") ∧
    (upload_csv ("2024-01-01T00:00:00") emptyStore
        [[(("timestamp"), Val.str ("not-a-date")), (("station_id"), Val.str ("S1")),
          (("station_name"), Val.str ("X")), (("lat"), Val.num 28),
          (("lon"), Val.num 77), (("pollutant"), Val.str ("NO2")),
          (("prediction"), Val.num 1), (("lower_q"), Val.num 0),
          (("upper_q"), Val.num 2)]]).2 = .ok 1 ∧
    get_predictions (upload_csv ("2024-01-01T00:00:00") emptyStore
        [[(("timestamp"), Val.str ("not-a-date")), (("station_id"), Val.str ("S1")),
          (("station_name"), Val.str ("X")), (("lat"), Val.num 28),
          (("lon"), Val.num 77), (("pollutant"), Val.str ("NO2")),
          (("prediction"), Val.num 1), (("lower_q"), Val.num 0),
          (("upper_q"), Val.num 2)]]).1 = .error ("AttributeError") := by
  refine ⟨by decide, by rfl, by rfl, by rfl⟩

/-- A digit character is one of the ten decimal digits. -/
theorem digit_mem_digitList (n : Nat) : digit n ∈ digitList := by
  have h : n % 10 < 10 := Nat.mod_lt _ (by omega)
  unfold digit
  generalize hk : n % 10 = k
  rw [hk] at h
  interval_cases k <;> decide

/-- C7 (amended): `GET /predictions` returns `{last_update: null, rows: []}`
whenever the parquet store is absent (the never-written state included),
and `{last_update, rows}` with the timestamp column serialized through
`strftime("%Y-%m-%d %H:%M:%S")` for every stored table carrying a
datetime-typed `timestamp` column; the serialized instants always have the
fixed 19-character `YYYY-MM-DD HH:MM:SS` shape.  The original "never
errors on any reachable store state" fails; both failure modes are
reachable (see the counterexample): a store without a `timestamp` column
(written by `upload_json`, which validates nothing) raises a `KeyError`,
and a store whose `timestamp` column is present but not datetime-typed
(admitted by `upload_csv`, whose validation checks only column presence
while `read_csv` leaves unparseable timestamps object-typed) raises an
`AttributeError` — the last conjunct proves this failure mode in
general. -/
theorem get_predictions_contract (st : BackendState) (df : List RowRec)
    (hp : st.predFile = some df)
    (hcol : (tableCols df).contains tsKey = true)
    (hdt : df.all (fun r => isDatetimeCell (getCell r tsKey)) = true) :
    get_predictions st = .ok ⟨st.metaFile, df.map serializeRow⟩ ∧
    (∀ s2 : BackendState, s2.predFile = none →
      get_predictions s2 = .ok ⟨none, []⟩) ∧
    (∀ u : Int, (strftimeYMDHMS u).length = 19 ∧
      (strftimeYMDHMS u).toList.getD 4 ' ' = '-' ∧
      (strftimeYMDHMS u).toList.getD 7 ' ' = '-' ∧
      (strftimeYMDHMS u).toList.getD 10 '-' = ' ' ∧
      (strftimeYMDHMS u).toList.getD 13 ' ' = ':' ∧
      (strftimeYMDHMS u).toList.getD 16 ' ' = ':' ∧
      ∀ i ∈ ([0, 1, 2, 3, 5, 6, 8, 9, 11, 12, 14, 15, 17, 18] : List Nat),
        (strftimeYMDHMS u).toList.getD i ' ' ∈ digitList) ∧
    (∀ (s3 : BackendState) (df3 : List RowRec), s3.predFile = some df3 →
      (tableCols df3).contains tsKey = true →
      df3.all (fun r => isDatetimeCell (getCell r tsKey)) = false →
      get_predictions s3 = .error ("AttributeError")) := by
  have hmm : tsKey ∈ tableCols df := List.elem_iff.mp hcol
  refine ⟨?_, ?_, ?_, ?_⟩
  · simp [get_predictions, hp, hmm, hdt, read_meta]
  · intro s2 h2
    simp [get_predictions, h2]
  · intro u
    simp only [strftimeYMDHMS, four, two, List.cons_append, List.nil_append]
    refine ⟨rfl, rfl, rfl, rfl, rfl, rfl, ?_⟩
    intro i hi
    fin_cases hi <;> exact digit_mem_digitList _
  · intro s3 df3 hp3 hcol3 hdt3
    have hmm3 : tsKey ∈ tableCols df3 := List.elem_iff.mp hcol3
    simp [get_predictions, hp3, hmm3, hdt3]

/-- Witness for C7 (amended) at a one-record store with epoch instant 0. -/
theorem get_predictions_contract_witness :
    get_predictions ⟨some [[(("timestamp"), Val.time 0)]], some ("2024-01-01T00:00:00")⟩
      = .ok ⟨(⟨some [[(("timestamp"), Val.time 0)]],
            some ("2024-01-01T00:00:00")⟩ : BackendState).metaFile,
          ([[(("timestamp"), Val.time 0)]] : List RowRec).map serializeRow⟩ ∧
    (∀ s2 : BackendState, s2.predFile = none →
      get_predictions s2 = .ok ⟨none, []⟩) ∧
    (∀ u : Int, (strftimeYMDHMS u).length = 19 ∧
      (strftimeYMDHMS u).toList.getD 4 ' ' = '-' ∧
      (strftimeYMDHMS u).toList.getD 7 ' ' = '-' ∧
      (strftimeYMDHMS u).toList.getD 10 '-' = ' ' ∧
      (strftimeYMDHMS u).toList.getD 13 ' ' = ':' ∧
      (strftimeYMDHMS u).toList.getD 16 ' ' = ':' ∧
      ∀ i ∈ ([0, 1, 2, 3, 5, 6, 8, 9, 11, 12, 14, 15, 17, 18] : List Nat),
        (strftimeYMDHMS u).toList.getD i ' ' ∈ digitList) ∧
    (∀ (s3 : BackendState) (df3 : List RowRec), s3.predFile = some df3 →
      (tableCols df3).contains tsKey = true →
      df3.all (fun r => isDatetimeCell (getCell r tsKey)) = false →
      get_predictions s3 = .error ("AttributeError")) :=
  get_predictions_contract
    ⟨some [[(("timestamp"), Val.time 0)]], some ("2024-01-01T00:00:00")⟩
    [[(("timestamp"), Val.time 0)]] rfl (by decide) (by decide)

/-- C10: the last-update value is read from the metadata sidecar
independently of the prediction table: when the parquet file exists but the
sidecar does not, `GET /predictions` returns a null `last_update` together
with the stored (possibly nonempty) rows — so a null `last_update` does not
imply that the store is empty. -/
theorem meta_independent_of_store (st : BackendState) (df : List RowRec)
    (hp : st.predFile = some df) (hm : st.metaFile = none)
    (hcol : (tableCols df).contains tsKey = true)
    (hdt : df.all (fun r => isDatetimeCell (getCell r tsKey)) = true) :
    get_predictions st = .ok ⟨none, df.map serializeRow⟩ ∧
    (df ≠ [] → df.map serializeRow ≠ []) := by
  have hmm : tsKey ∈ tableCols df := List.elem_iff.mp hcol
  constructor
  · simp [get_predictions, hp, hmm, hdt, read_meta, hm]
  · intro h1 h2
    exact h1 (List.map_eq_nil_iff.mp h2)

/-- Witness for C10: a store with one prediction record and no sidecar. -/
theorem meta_independent_of_store_witness :
    get_predictions ⟨some [[(("timestamp"), Val.time 0), (("prediction"), Val.num 5)]], none⟩
      = .ok ⟨none, ([[(("timestamp"), Val.time 0), (("prediction"), Val.num 5)]] : List RowRec).map serializeRow⟩ ∧
    (([[(("timestamp"), Val.time 0), (("prediction"), Val.num 5)]] : List RowRec) ≠ [] →
      ([[(("timestamp"), Val.time 0), (("prediction"), Val.num 5)]] : List RowRec).map serializeRow ≠ []) :=
  meta_independent_of_store
    ⟨some [[(("timestamp"), Val.time 0), (("prediction"), Val.num 5)]], none⟩
    [[(("timestamp"), Val.time 0), (("prediction"), Val.num 5)]]
    rfl rfl (by decide) (by decide)

/-- C9: the color classification is a pure total function of the reading
(`pd.isna` routes both null and NaN to the gray branch): null/NaN maps to
gray (the Unknown class), any reading below 40 to green (Good), any reading
from 40 below 80 to yellow (Moderate), and any reading from 80 upward to
red (Poor). -/
theorem get_color_classification :
    get_color none = [180, 180, 180] ∧
    (∀ v : ℚ, v < 40 → get_color (some v) = [0, 255, 0]) ∧
    (∀ v : ℚ, 40 ≤ v → v < 80 → get_color (some v) = [255, 255, 0]) ∧
    (∀ v : ℚ, 80 ≤ v → get_color (some v) = [255, 0, 0]) := by
  refine ⟨rfl, ?_, ?_, ?_⟩
  · intro v h
    simp [get_color, h]
  · intro v h1 h2
    have h3 : ¬ (v < 40) := by linarith
    simp [get_color, h3, h2]
  · intro v h
    have h1 : ¬ (v < 40) := by linarith
    have h2 : ¬ (v < 80) := by linarith
    simp [get_color, h1, h2]

/-- Witness for C9 at the specification's boundary readings 39.9, 40, 79.9
and 80. -/
theorem get_color_classification_witness :
    get_color (some (399 / 10)) = [0, 255, 0] ∧
    get_color (some 40) = [255, 255, 0] ∧
    get_color (some (799 / 10)) = [255, 255, 0] ∧
    get_color (some 80) = [255, 0, 0] :=
  ⟨get_color_classification.2.1 (399 / 10) (by norm_num),
    get_color_classification.2.2.1 40 (by norm_num) (by norm_num),
    get_color_classification.2.2.1 (799 / 10) (by norm_num) (by norm_num),
    get_color_classification.2.2.2 80 (by norm_num)⟩

/-- The `NaT`-last order is total. -/
theorem toLE_total (a b : Option Int) : toLE a b = true ∨ toLE b a = true := by
  cases a <;> cases b <;> simp [toLE] <;> omega

/-- The `NaT`-last order is transitive. -/
theorem toLE_trans {a b c : Option Int} (h1 : toLE a b = true)
    (h2 : toLE b c = true) : toLE a c = true := by
  cases a <;> cases b <;> cases c <;> simp [toLE] at * <;> omega

/-- `toLT` is the negation of the reversed `toLE`. -/
theorem toLT_eq_not (a b : Option Int) : toLT a b = !(toLE b a) := rfl

/-- A failed strict comparison yields the reversed lax comparison. -/
theorem toLE_of_not_toLT {a b : Option Int} (h : toLT a b = false) :
    toLE b a = true := by
  rw [toLT_eq_not] at h
  cases hh : toLE b a with
  | false => rw [hh] at h; simp at h
  | true => rfl

/-- A successful strict comparison yields the lax comparison. -/
theorem toLE_of_toLT {a b : Option Int} (h : toLT a b = true) :
    toLE a b = true := by
  rcases toLE_total a b with h1 | h1
  · exact h1
  · rw [toLT_eq_not, h1] at h
    simp at h

/-- Membership in an insertion. -/
theorem mem_insertByTo (r y : StationRow) (l : List StationRow) :
    y ∈ insertByTo r l ↔ y = r ∨ y ∈ l := by
  induction l with
  | nil => simp [insertByTo]
  | cons x xs ih =>
    by_cases h : toLT x.toTs r.toTs = true
    · simp only [insertByTo, h, if_true, List.mem_cons, ih]
      tauto
    · rw [Bool.not_eq_true] at h
      simp only [insertByTo, h]
      rw [if_neg Bool.false_ne_true]
      simp only [List.mem_cons]

/-- Insertion preserves sortedness. -/
theorem pairwise_insertByTo (r : StationRow) (l : List StationRow)
    (h : l.Pairwise (fun a b => toLE a.toTs b.toTs = true)) :
    (insertByTo r l).Pairwise (fun a b => toLE a.toTs b.toTs = true) := by
  induction l with
  | nil => simp [insertByTo]
  | cons x xs ih =>
    rw [List.pairwise_cons] at h
    by_cases hlt : toLT x.toTs r.toTs = true
    · simp only [insertByTo, hlt, if_true]
      rw [List.pairwise_cons]
      constructor
      · intro y hy
        rcases (mem_insertByTo r y xs).mp hy with rfl | hy2
        · exact toLE_of_toLT hlt
        · exact h.1 y hy2
      · exact ih h.2
    · rw [Bool.not_eq_true] at hlt
      simp only [insertByTo, hlt]
      rw [if_neg Bool.false_ne_true]
      rw [List.pairwise_cons]
      constructor
      · intro y hy
        rcases List.mem_cons.mp hy with rfl | hy2
        · exact toLE_of_not_toLT hlt
        · exact toLE_trans (toLE_of_not_toLT hlt) (h.1 y hy2)
      · rw [List.pairwise_cons]
        exact h
    
/-- The sort is sorted. -/
theorem pairwise_sortByTo (l : List StationRow) :
    (sortByTo l).Pairwise (fun a b => toLE a.toTs b.toTs = true) := by
  induction l with
  | nil => simp [sortByTo]
  | cons x xs ih => exact pairwise_insertByTo x (sortByTo xs) ih

/-- Prepending to a nonempty list does not change its last element. -/
theorem getLast?_cons_ne_nil {α : Type} (x : α) (m : List α) (h : m ≠ []) :
    (x :: m).getLast? = m.getLast? := by
  cases m with
  | nil => exact absurd rfl h
  | cons z zs => rfl

/-- `dropDupKeepLast` only keeps rows of the input. -/
theorem dropDupKeepLast_subset (l : List StationRow) :
    ∀ r ∈ dropDupKeepLast l, r ∈ l := by
  induction l with
  | nil => simp [dropDupKeepLast]
  | cons x xs ih =>
    intro r hr
    by_cases h : xs.any (fun y => y.station == x.station) = true
    · simp only [dropDupKeepLast, h, if_true] at hr
      exact List.mem_cons_of_mem x (ih r hr)
    · have h2 : xs.any (fun y => y.station == x.station) = false :=
        Bool.eq_false_iff.mpr h
      simp only [dropDupKeepLast, h2] at hr
      rw [if_neg Bool.false_ne_true] at hr
      rcases List.mem_cons.mp hr with rfl | hr2
      · simp
      · exact List.mem_cons_of_mem x (ih r hr2)

/-- A row is kept by `dropDupKeepLast` exactly when it is the last
occurrence of its station value in the list. -/
theorem mem_dropDupKeepLast_iff (l : List StationRow) (r : StationRow) :
    r ∈ dropDupKeepLast l ↔
      (l.filter (fun x => x.station == r.station)).getLast? = some r := by
  induction l with
  | nil => simp [dropDupKeepLast]
  | cons x xs ih =>
    by_cases hS : xs.any (fun y => y.station == x.station) = true
    · have hL : dropDupKeepLast (x :: xs) = dropDupKeepLast xs := by
        simp only [dropDupKeepLast, hS, if_true]
      rw [hL, ih, List.filter_cons]
      by_cases hx : (x.station == r.station) = true
      · rw [if_pos hx]
        obtain ⟨y, hy, hyx⟩ := List.any_eq_true.mp hS
        have hyr : (y.station == r.station) = true := by
          rw [beq_iff_eq] at hx hyx ⊢
          rw [hyx, hx]
        have hne : xs.filter (fun z => z.station == r.station) ≠ [] := by
          intro hemp
          have hmem : y ∈ xs.filter (fun z => z.station == r.station) :=
            List.mem_filter.mpr ⟨hy, hyr⟩
          rw [hemp] at hmem
          simp at hmem
        rw [getLast?_cons_ne_nil x _ hne]
      · rw [if_neg (by simpa using hx)]
    · have hS2 : xs.any (fun y => y.station == x.station) = false :=
        Bool.eq_false_iff.mpr hS
      have hL : dropDupKeepLast (x :: xs) = x :: dropDupKeepLast xs := by
        simp only [dropDupKeepLast, hS2]
        rw [if_neg Bool.false_ne_true]
      rw [hL, List.filter_cons]
      by_cases hx : (x.station == r.station) = true
      · rw [if_pos hx]
        have hfe : xs.filter (fun z => z.station == r.station) = [] := by
          rw [List.filter_eq_nil_iff]
          intro z hz hzr
          apply hS
          apply List.any_eq_true.mpr
          refine ⟨z, hz, ?_⟩
          rw [beq_iff_eq] at hx hzr ⊢
          rw [hzr, hx]
        rw [hfe]
        constructor
        · intro hmem
          rcases List.mem_cons.mp hmem with rfl | h2
          · rfl
          · exfalso
            have hrxs : r ∈ xs := dropDupKeepLast_subset xs r h2
            apply hS
            apply List.any_eq_true.mpr
            refine ⟨r, hrxs, ?_⟩
            rw [beq_iff_eq] at hx ⊢
            rw [hx]
        · intro hsome
          have hxx : ([x] : List StationRow).getLast? = some x := rfl
          rw [hxx] at hsome
          injection hsome with hsome
          rw [← hsome]
          simp
      · rw [if_neg (by simpa using hx)]
        constructor
        · intro hmem
          rcases List.mem_cons.mp hmem with rfl | h2
          · exact absurd (beq_iff_eq.mpr rfl) hx
          · exact ih.mp h2
        · intro hsome
          exact List.mem_cons_of_mem x (ih.mpr hsome)

/-- A nonempty list has a last element. -/
theorem exists_getLast?_of_ne_nil {α : Type} (l : List α) (h : l ≠ []) :
    ∃ a, l.getLast? = some a := by
  induction l with
  | nil => exact absurd rfl h
  | cons z zs ih =>
    cases hz : zs with
    | nil => exact ⟨z, rfl⟩
    | cons w t =>
      have hzs : zs ≠ [] := by rw [hz]; simp
      obtain ⟨a, ha⟩ := ih hzs
      rw [hz] at ha
      exact ⟨a, ha⟩


/-- The `NaT`-last order is reflexive. -/
theorem toLE_refl (a : Option Int) : toLE a a = true := by
  cases a <;> simp [toLE]

/-- In a sorted list the last element bounds every element from above. -/
theorem getLast?_max_of_sorted (m : List StationRow) :
    m.Pairwise (fun a b => toLE a.toTs b.toTs = true) →
    ∀ r, m.getLast? = some r → ∀ x ∈ m, toLE x.toTs r.toTs = true := by
  induction m with
  | nil =>
    intro _ r h
    simp at h
  | cons z zs ih =>
    intro hs r h x hx
    rw [List.pairwise_cons] at hs
    cases hzs : zs with
    | nil =>
      subst hzs
      have hz : r = z := by
        have hh : ([z] : List StationRow).getLast? = some z := rfl
        rw [hh] at h
        injection h with h2
        exact h2.symm
      subst hz
      rcases List.mem_cons.mp hx with rfl | hx2
      · exact toLE_refl _
      · simp at hx2
    | cons w t =>
      have hzs_ne : zs ≠ [] := by rw [hzs]; simp
      rw [getLast?_cons_ne_nil z zs hzs_ne] at h
      have hrzs : r ∈ zs := List.mem_of_mem_getLast? h
      rcases List.mem_cons.mp hx with rfl | hx2
      · exact hs.1 r hrzs
      · exact ih hs.2 r h x hx2

/-- The insertion step produces a permutation of pushing the row in
front. -/
theorem insertByTo_perm (r : StationRow) (l : List StationRow) :
    (insertByTo r l).Perm (r :: l) := by
  induction l with
  | nil => exact List.Perm.refl _
  | cons x xs ih =>
    by_cases h : toLT x.toTs r.toTs = true
    · simp only [insertByTo, h, if_true]
      exact (ih.cons x).trans (List.Perm.swap r x xs)
    · have h2 : toLT x.toTs r.toTs = false := Bool.eq_false_iff.mpr h
      simp only [insertByTo, h2]
      rw [if_neg Bool.false_ne_true]

/-- The executable sort refinement permutes its input, as `sort_values`
guarantees. -/
theorem sortByTo_perm (l : List StationRow) : (sortByTo l).Perm l := by
  induction l with
  | nil => exact List.Perm.refl _
  | cons x xs ih =>
    exact (insertByTo_perm x (sortByTo xs)).trans (List.Perm.cons x ih)

/-- Snapshot contract over an arbitrary sorted permutation — exactly what
pandas `sort_values` (default unstable quicksort, `na_position` last)
guarantees about its output.  For a table whose rows all carry timestamps:
the keep-last deduplication of any sorted permutation keeps exactly one
row per station present; every kept row is a row of the table whose
timestamp bounds every same-station timestamp from above; and a row whose
timestamp strictly exceeds that of every other same-station row is
exactly the row kept for its station.  Which row survives among several
tied at the maximal timestamp depends on the permutation, i.e. on the
sort's unspecified tie order. -/
theorem snapshot_sortedPerm (rows sorted2 : List StationRow)
    (hperm : sorted2.Perm rows)
    (hsort : sorted2.Pairwise (fun a b => toLE a.toTs b.toTs = true))
    (hnn : ∀ x ∈ rows, x.toTs ≠ none) :
    (∀ s, (∃ x ∈ rows, x.station = s) →
      ∃ r, (r ∈ dropDupKeepLast sorted2 ∧ r.station = s) ∧
        ∀ q, q ∈ dropDupKeepLast sorted2 → q.station = s → q = r) ∧
    (∀ r, r ∈ dropDupKeepLast sorted2 →
      r ∈ rows ∧
      ∀ x ∈ rows, x.station = r.station →
        ∀ a b, x.toTs = some a → r.toTs = some b → a ≤ b) ∧
    (∀ r ∈ rows,
      (∀ x ∈ rows, x.station = r.station → x ≠ r →
        ∀ a b, x.toTs = some a → r.toTs = some b → a < b) →
      r ∈ dropDupKeepLast sorted2) := by
  have hmem : ∀ x : StationRow, x ∈ sorted2 ↔ x ∈ rows := fun x => hperm.mem_iff
  refine ⟨?_, ?_, ?_⟩
  · intro s hs
    obtain ⟨x0, hx0, hx0s⟩ := hs
    subst hx0s
    have hFne : sorted2.filter (fun z => z.station == x0.station) ≠ [] := by
      intro hemp
      have hm0 : x0 ∈ sorted2.filter (fun z => z.station == x0.station) :=
        List.mem_filter.mpr ⟨(hmem x0).mpr hx0, beq_iff_eq.mpr rfl⟩
      rw [hemp] at hm0
      simp at hm0
    obtain ⟨r0, hr0⟩ := exists_getLast?_of_ne_nil _ hFne
    have hr0F : r0 ∈ sorted2.filter (fun z => z.station == x0.station) :=
      List.mem_of_mem_getLast? hr0
    have hr0s : r0.station = x0.station :=
      beq_iff_eq.mp (List.mem_filter.mp hr0F).2
    have hkept : r0 ∈ dropDupKeepLast sorted2 := by
      rw [mem_dropDupKeepLast_iff]
      rw [show (fun x : StationRow => x.station == r0.station)
          = (fun x : StationRow => x.station == x0.station) from by
        funext z
        rw [hr0s]]
      exact hr0
    refine ⟨r0, ⟨hkept, hr0s⟩, ?_⟩
    intro q hq hqs
    have hq2 := (mem_dropDupKeepLast_iff sorted2 q).mp hq
    rw [show (fun x : StationRow => x.station == q.station)
        = (fun x : StationRow => x.station == x0.station) from by
      funext z
      rw [hqs]] at hq2
    rw [hr0] at hq2
    injection hq2 with hq3
    exact hq3.symm
  · intro r hr
    have hD := (mem_dropDupKeepLast_iff sorted2 r).mp hr
    have hrF : r ∈ sorted2.filter (fun x => x.station == r.station) :=
      List.mem_of_mem_getLast? hD
    have hrrows : r ∈ rows := (hmem r).mp (List.mem_filter.mp hrF).1
    refine ⟨hrrows, ?_⟩
    intro x hx hxs a b hxa hrb
    have hxF : x ∈ sorted2.filter (fun z => z.station == r.station) :=
      List.mem_filter.mpr ⟨(hmem x).mpr hx, beq_iff_eq.mpr hxs⟩
    have hle := getLast?_max_of_sorted _ (hsort.filter _) r hD x hxF
    rw [hxa, hrb] at hle
    simpa [toLE] using hle
  · intro r hr hstrict
    have hrF : r ∈ sorted2.filter (fun z => z.station == r.station) :=
      List.mem_filter.mpr ⟨(hmem r).mpr hr, beq_iff_eq.mpr rfl⟩
    have hFne : sorted2.filter (fun z => z.station == r.station) ≠ [] := by
      intro hemp
      rw [hemp] at hrF
      simp at hrF
    obtain ⟨r1, hr1⟩ := exists_getLast?_of_ne_nil _ hFne
    have hr1F : r1 ∈ sorted2.filter (fun z => z.station == r.station) :=
      List.mem_of_mem_getLast? hr1
    have hr1s : r1.station = r.station :=
      beq_iff_eq.mp (List.mem_filter.mp hr1F).2
    have hr1rows : r1 ∈ rows := (hmem r1).mp (List.mem_filter.mp hr1F).1
    by_cases heq : r1 = r
    · subst heq
      exact (mem_dropDupKeepLast_iff sorted2 r1).mpr hr1
    · exfalso
      obtain ⟨b, hb⟩ := Option.ne_none_iff_exists'.mp (hnn r hr)
      obtain ⟨a1, ha1⟩ := Option.ne_none_iff_exists'.mp (hnn r1 hr1rows)
      have hlt := hstrict r1 hr1rows hr1s heq a1 b ha1 hb
      have hmax := getLast?_max_of_sorted _ (hsort.filter _) r1 hr1 r hrF
      rw [hb, ha1] at hmax
      simp only [toLE] at hmax
      simp at hmax
      omega

/-- C8 counterexample: a station table with a missing timestamp.  Station
A's maximum timestamp is 5, carried by the first row, but the snapshot
keeps the second, `NaT` row: `sort_values` places missing timestamps last
(default `na_position`), so `keep="last"` selects the `NaT` row over the
max-timestamp row — refuting, at a concrete input, that for every station
table the snapshot keeps the row with the maximum timestamp.  This
evaluation does not depend on the executable sort refinement's tie
behavior: `cex_sorted_perm_unique` shows every sorted permutation of this
table is the same list. -/
theorem snapshot_nat_cex :
    latest_station_data [⟨("A"), some 5, none⟩, ⟨("A"), none, none⟩]
      = [⟨("A"), none, none⟩] := by
  decide

/-- Every sorted permutation of the counterexample table coincides with
the list the executable refinement produces, so the counterexample's
snapshot is independent of the sort's unspecified tie order. -/
theorem cex_sorted_perm_unique (l2 : List StationRow)
    (hperm : l2.Perm [⟨("A"), some 5, none⟩, ⟨("A"), none, none⟩])
    (hsort : l2.Pairwise (fun a b => toLE a.toTs b.toTs = true)) :
    l2 = [⟨("A"), some 5, none⟩, ⟨("A"), none, none⟩] := by
  have hlen := hperm.length_eq
  cases l2 with
  | nil => simp at hlen
  | cons x t =>
    cases t with
    | nil => simp at hlen
    | cons y t2 =>
      cases t2 with
      | cons z t3 => simp at hlen
      | nil =>
        have hx : x = ⟨("A"), some 5, none⟩ ∨ x = ⟨("A"), none, none⟩ := by
          have hxm := hperm.subset (show x ∈ [x, y] by simp)
          simpa using hxm
        have hy : y = ⟨("A"), some 5, none⟩ ∨ y = ⟨("A"), none, none⟩ := by
          have hym := hperm.subset (show y ∈ [x, y] by simp)
          simpa using hym
        rcases hx with rfl | rfl
        · rcases hy with rfl | rfl
          · exfalso
            have hm2 : (⟨("A"), none, none⟩ : StationRow)
                ∈ [(⟨("A"), some 5, none⟩ : StationRow), ⟨("A"), some 5, none⟩] :=
              hperm.mem_iff.mpr (by simp)
            simp at hm2
          · rfl
        · exfalso
          rcases hy with rfl | rfl
          · rw [List.pairwise_cons] at hsort
            have hbad := hsort.1 _ (show (⟨("A"), some 5, none⟩ : StationRow)
              ∈ [(⟨("A"), some 5, none⟩ : StationRow)] by simp)
            simp [toLE] at hbad
          · have hm1 : (⟨("A"), some 5, none⟩ : StationRow)
                ∈ [(⟨("A"), none, none⟩ : StationRow), ⟨("A"), none, none⟩] :=
              hperm.mem_iff.mpr (by simp)
            simp at hm1

/-- C8 (amended): on a station table in which every row carries a
timestamp, the snapshot keeps exactly one row per station present; every
kept row is a row of the table whose timestamp is the maximum timestamp of
its station; and a row whose timestamp strictly exceeds that of every
other row of its station — in particular the T2 row of a same-station pair
at T1 < T2 — is exactly the row kept, values included.  All three
conclusions are instances of `snapshot_sortedPerm`, proved for every
sorted permutation of the table, because pandas' default quicksort
guarantees no particular tie order: which row is kept among several tied
at the maximal timestamp is implementation-defined, and no
last-in-input-order tie-break is asserted. -/
theorem latest_station_snapshot (rows : List StationRow)
    (hnn : ∀ x ∈ rows, x.toTs ≠ none) :
    (∀ s, (∃ x ∈ rows, x.station = s) →
      ∃ r, (r ∈ latest_station_data rows ∧ r.station = s) ∧
        ∀ q, q ∈ latest_station_data rows → q.station = s → q = r) ∧
    (∀ r, r ∈ latest_station_data rows →
      r ∈ rows ∧
      ∀ x ∈ rows, x.station = r.station →
        ∀ a b, x.toTs = some a → r.toTs = some b → a ≤ b) ∧
    (∀ r ∈ rows,
      (∀ x ∈ rows, x.station = r.station → x ≠ r →
        ∀ a b, x.toTs = some a → r.toTs = some b → a < b) →
      r ∈ latest_station_data rows) :=
  snapshot_sortedPerm rows (sortByTo rows) (sortByTo_perm rows)
    (pairwise_sortByTo rows) hnn

/-- Witness for C8 at a four-row table with a duplicate-timestamp
station. -/
theorem latest_station_snapshot_witness :
    (∀ s, (∃ x ∈ ([⟨("A"), some 1, some 10⟩, ⟨("B"), some 3, none⟩,
          ⟨("A"), some 5, some 20⟩, ⟨("A"), some 5, some 30⟩] : List StationRow),
        x.station = s) →
      ∃ r, (r ∈ latest_station_data
          [⟨("A"), some 1, some 10⟩, ⟨("B"), some 3, none⟩,
            ⟨("A"), some 5, some 20⟩, ⟨("A"), some 5, some 30⟩] ∧ r.station = s) ∧
        ∀ q, q ∈ latest_station_data
            [⟨("A"), some 1, some 10⟩, ⟨("B"), some 3, none⟩,
              ⟨("A"), some 5, some 20⟩, ⟨("A"), some 5, some 30⟩] →
          q.station = s → q = r) ∧
    (∀ r, r ∈ latest_station_data
        [⟨("A"), some 1, some 10⟩, ⟨("B"), some 3, none⟩,
          ⟨("A"), some 5, some 20⟩, ⟨("A"), some 5, some 30⟩] →
      r ∈ ([⟨("A"), some 1, some 10⟩, ⟨("B"), some 3, none⟩,
          ⟨("A"), some 5, some 20⟩, ⟨("A"), some 5, some 30⟩] : List StationRow) ∧
      ∀ x ∈ ([⟨("A"), some 1, some 10⟩, ⟨("B"), some 3, none⟩,
          ⟨("A"), some 5, some 20⟩, ⟨("A"), some 5, some 30⟩] : List StationRow),
        x.station = r.station →
        ∀ a b, x.toTs = some a → r.toTs = some b → a ≤ b) ∧
    (∀ r ∈ ([⟨("A"), some 1, some 10⟩, ⟨("B"), some 3, none⟩,
        ⟨("A"), some 5, some 20⟩, ⟨("A"), some 5, some 30⟩] : List StationRow),
      (∀ x ∈ ([⟨("A"), some 1, some 10⟩, ⟨("B"), some 3, none⟩,
          ⟨("A"), some 5, some 20⟩, ⟨("A"), some 5, some 30⟩] : List StationRow),
        x.station = r.station → x ≠ r →
        ∀ a b, x.toTs = some a → r.toTs = some b → a < b) →
      r ∈ latest_station_data
        [⟨("A"), some 1, some 10⟩, ⟨("B"), some 3, none⟩,
          ⟨("A"), some 5, some 20⟩, ⟨("A"), some 5, some 30⟩]) :=
  latest_station_snapshot
    [⟨("A"), some 1, some 10⟩, ⟨("B"), some 3, none⟩,
      ⟨("A"), some 5, some 20⟩, ⟨("A"), some 5, some 30⟩]
    (by decide)
